import Mathlib

/-!
# Verification of the safelock distributed lock library

Shallow embedding of the safelock Go package (filesystem and S3 object
backends).  Bytes are modelled as natural numbers below 256, byte slices as
`List Nat`, and the lock resource of a backend as an `Option (List Nat)`
(`none` = the lock file/object is absent, `some body` = it exists with the
given contents).  Machine integers (`uint16`, `uint64`, `int64` durations)
are modelled as `Nat`/`Int` with explicit `% 2^w` where the code can wrap.

The two backends (`src/file.go` and `src/s3.go`) implement the identical
acquisition / release / repair algorithm; only the calls into the storage
capability differ (afero stat/open/write/remove versus S3 head/get/put/
delete).  That engine is therefore embedded once, over the abstract
resource state, and each theorem about it covers both backends.  The one
behavioural divergence between the backends is in `WaitForLock`:
`FileLock.WaitForLock` returns a failing state query's error immediately,
while `S3ObjectLock.WaitForLock` discards it, so the two polling loops are
embedded separately (`fileWaitLoop` and `waitLoop`).
-/

namespace Safelock

/-- `binary.LittleEndian.PutUint16` (src/lock.go, `GetNodeBytes`):
byte i is `v >> 8*i` truncated to 8 bits. -/
def putUint16LE (v : Nat) : List Nat :=
  [v % 256, v / 2 ^ 8 % 256]

/-- `binary.LittleEndian.PutUint64` (src/lock.go, `GetIDBytes` and the
timestamp field of `GetLockBody`): byte i is `v >> 8*i` truncated to 8 bits. -/
def putUint64LE (v : Nat) : List Nat :=
  [v % 256, v / 2 ^ 8 % 256, v / 2 ^ 16 % 256, v / 2 ^ 24 % 256,
   v / 2 ^ 32 % 256, v / 2 ^ 40 % 256, v / 2 ^ 48 % 256, v / 2 ^ 56 % 256]

/-- `binary.LittleEndian.Uint64` reads the first 8 bytes of the slice
little-endian; when the slice holds fewer than 8 bytes the bounds check
`_ = b[7]` panics, modelled here as `none`. -/
def uint64LE : List Nat → Option Nat
  | b0 :: b1 :: b2 :: b3 :: b4 :: b5 :: b6 :: b7 :: _ =>
    some (b0 % 256 + b1 % 256 * 2 ^ 8 + b2 % 256 * 2 ^ 16 + b3 % 256 * 2 ^ 24 +
          b4 % 256 * 2 ^ 32 + b5 % 256 * 2 ^ 40 + b6 % 256 * 2 ^ 48 + b7 % 256 * 2 ^ 56)
  | _ => none

/-- Go's `uint64` → `int64` conversion, applied to the decoded timestamp in
`lockStatus` (`int64(binary.LittleEndian.Uint64(parts[2]))`). -/
def toInt64 (u : Nat) : Int :=
  if u % 2 ^ 64 < 2 ^ 63 then ((u % 2 ^ 64 : Nat) : Int)
  else ((u % 2 ^ 64 : Nat) : Int) - 2 ^ 64

/-- `bytes.Split(body, []byte("\n"))`: split around every `0x0A` byte.
`bytes.Split` of an empty slice around a 1-byte separator yields one empty
subslice, and each separator occurrence starts a new subslice. -/
def splitNL : List Nat → List (List Nat)
  | [] => [[]]
  | c :: rest =>
    if c = 10 then [] :: splitNL rest
    else
      match splitNL rest with
      | [] => [[c]]
      | p :: ps => (c :: p) :: ps

/-- The bytes `a` contain no newline (`0x0A`) byte. -/
def noNL (a : List Nat) : Prop := ∀ x ∈ a, x ≠ 10

instance (a : List Nat) : Decidable (noNL a) := by
  unfold noNL; infer_instance

/-- The lock's state as seen through a backend's exists-check
(`LockState` string constants of src/lock.go, modelled as an enum). -/
inductive LockState where
  | locked
  | unlocked
  | unknown
deriving DecidableEq, Repr

/-- `SafeLock` (src/lock.go): the handle's metadata.  `node` is a `uint16`,
`id` (the session, set to `uint64(time.Now().UnixNano())` at construction) a
`uint64`, `timeout` a `time.Duration` in nanoseconds (`int64`).  The
`sync.Mutex` guard serialises in-process calls and has no effect on the
sequential semantics embedded here. -/
structure SafeLock where
  node : Nat
  id : Nat
  lockSuffix : String
  timeout : Int
deriving DecidableEq, Repr

/-- `SafeLock.GetNodeBytes` (src/lock.go): 2-byte little-endian node id. -/
def SafeLock.GetNodeBytes (l : SafeLock) : List Nat := putUint16LE l.node

/-- `SafeLock.GetIDBytes` (src/lock.go): 8-byte little-endian session id. -/
def SafeLock.GetIDBytes (l : SafeLock) : List Nat := putUint64LE l.id

/-- `SafeLock.GetLockSuffix` (src/lock.go). -/
def SafeLock.GetLockSuffix (l : SafeLock) : String := l.lockSuffix

/-- `SafeLock.GetTimeout` (src/lock.go). -/
def SafeLock.GetTimeout (l : SafeLock) : Int := l.timeout

/-- `SafeLock.GetLockBody` (src/lock.go): node bytes, `\n`, id bytes, `\n`,
8-byte little-endian timestamp taken from `time.Now().UnixNano()` — the
write time is passed explicitly here. -/
def SafeLock.GetLockBody (l : SafeLock) (writeTime : Nat) : List Nat :=
  l.GetNodeBytes ++ [10] ++ l.GetIDBytes ++ [10] ++ putUint64LE (writeTime % 2 ^ 64)

/-- The record bytes that `GetLockBody` produces for an owner
`(node, session)` at time `ts`: the wire format of §3 of the spec. -/
def encodeRecord (node session ts : Nat) : List Nat :=
  putUint16LE node ++ [10] ++ putUint64LE session ++ [10] ++ putUint64LE ts

/-- The newline-split segment extraction shared by the two `lockStatus`
implementations (src/file.go, src/s3.go): `bytes.Split(body, "\n")` must
yield exactly three segments, otherwise the read fails with
`incompatible lock file format`. -/
def decodeRecord (body : List Nat) : Option (List Nat × List Nat × List Nat) :=
  match splitNL body with
  | [p0, p1, p2] => some (p0, p1, p2)
  | _ => none

/-- The record-read step of Lock/Unlock, modelled as what the bytes decode
to.  `parts := bytes.Split(body, "\n")` must have exactly 3 elements, else
`incompatible lock file format`; with a positive timeout the third part is
decoded with `binary.LittleEndian.Uint64` (panicking when it is shorter
than 8 bytes). -/
inductive StatusResult where
  | ok (nodeOwned sessionOwned expired : Bool)
  | formatError
  | panicked
deriving DecidableEq, Repr

/-- `FileLock.lockStatus` (src/file.go) and `S3ObjectLock.lockStatus`
(src/s3.go), identical logic: split the stored body on newlines, require
exactly 3 parts, decide node/session ownership by byte equality against
`GetNodeBytes`/`GetIDBytes`, and when `l.timeout > 0` decode the third part
as the creation timestamp and compare `time.Since(ts) > l.timeout`
(`now` is `time.Now().UnixNano()` as an `int64`). -/
def SafeLock.lockStatus (l : SafeLock) (body : List Nat) (now : Int) : StatusResult :=
  match splitNL body with
  | [p0, p1, p2] =>
    if 0 < l.timeout then
      match uint64LE p2 with
      | none => .panicked
      | some ts =>
        .ok (decide (p0 = l.GetNodeBytes)) (decide (p1 = l.GetIDBytes))
          (decide (now - toInt64 ts > l.timeout))
    else
      .ok (decide (p0 = l.GetNodeBytes)) (decide (p1 = l.GetIDBytes)) false
  | _ => .formatError

/-- The error outcomes the engine can produce. -/
inductive GoErr where
  /-- `"the object at ... is locked"` -/
  | alreadyLocked
  /-- `"the object at ... is not locked"` -/
  | notLocked
  /-- `"the existing lock is not managed by this process"` -/
  | notOwned
  /-- `"failed to check lock ownership: ..."` / `"unable to determine if
  lock is the same lock: ..."` wrapping `"incompatible lock file format"` -/
  | statusFormat
deriving DecidableEq, Repr

/-- Result of an engine operation together with the resulting contents of
the lock resource (`none` = absent). -/
inductive Outcome where
  | ok (store : Option (List Nat))
  | err (e : GoErr) (store : Option (List Nat))
  | panicked
deriving DecidableEq, Repr

/-- `FileLock.Lock` (src/file.go) and `S3ObjectLock.Lock` (src/s3.go),
identical logic over the storage capability: if the exists-check reports
Locked (the resource is present), read ownership via `lockStatus`; when
`(nodeOwned && !sessionOwned) || expired` remove the stale record and fall
through, otherwise fail with the already-locked error.  Then write
`GetLockBody` under the internal guard. -/
def SafeLock.lockOp (l : SafeLock) (store : Option (List Nat)) (now : Int)
    (writeTime : Nat) : Outcome :=
  match store with
  | none => .ok (some (l.GetLockBody writeTime))
  | some body =>
    match l.lockStatus body now with
    | .panicked => .panicked
    | .formatError => .err .statusFormat (some body)
    | .ok nodeOwned sessionOwned expired =>
      if (nodeOwned && !sessionOwned) || expired then
        .ok (some (l.GetLockBody writeTime))
      else
        .err .alreadyLocked (some body)

/-- `FileLock.Unlock` (src/file.go) and `S3ObjectLock.Unlock` (src/s3.go),
identical logic: fail with the not-locked error when the resource is
absent; otherwise read ownership via `lockStatus` and fail with the
not-owned error when `!nodeOwned && !expired`; otherwise remove the record
under the internal guard. -/
def SafeLock.unlockOp (l : SafeLock) (store : Option (List Nat)) (now : Int) : Outcome :=
  match store with
  | none => .err .notLocked none
  | some body =>
    match l.lockStatus body now with
    | .panicked => .panicked
    | .formatError => .err .statusFormat (some body)
    | .ok nodeOwned _ expired =>
      if !nodeOwned && !expired then .err .notOwned (some body)
      else .ok none

/-- `FileLock.ForceUnlock` (src/file.go) and `S3ObjectLock.ForceUnlock`
(src/s3.go), identical logic: fail with the not-locked error when the
resource is absent, otherwise remove the record without reading it. -/
def SafeLock.forceUnlockOp (_l : SafeLock) (store : Option (List Nat)) : Outcome :=
  match store with
  | none => .err .notLocked none
  | some _ => .ok none

/-- `FileLock` (src/file.go): a `SafeLock` embedded by pointer plus the
locked file's name.  The afero `Fs` capability is factored out: the engine
theorems take the lock resource contents as an explicit argument. -/
structure FileLock where
  safeLock : SafeLock
  filename : String
deriving DecidableEq, Repr

/-- `FileLock.GetFilename` (src/file.go). -/
def FileLock.GetFilename (f : FileLock) : String := f.filename

/-- `FileLock.GetLockFilename` (src/file.go):
`l.GetFilename() + l.GetLockSuffix()`. -/
def FileLock.GetLockFilename (f : FileLock) : String :=
  f.GetFilename ++ f.safeLock.GetLockSuffix

/-- `SafeLock.GetLockURI` (src/lock.go): the base implementation returns
the empty string. -/
def SafeLock.GetLockURI (_l : SafeLock) : String := ""

/-- `FileLock.GetLockURI`: src/file.go declares no `GetLockURI` method on
`FileLock`, so Go method promotion resolves `l.GetLockURI()` to the
embedded `SafeLock.GetLockURI` (src/lock.go). -/
def FileLock.GetLockURI (f : FileLock) : String :=
  f.safeLock.GetLockURI

/-- `FileLock.GetLockState` (src/file.go): stat success ⇒ Locked, stat
"does not exist" ⇒ Unlocked (error discarded); any other stat error ⇒
Unknown with the error.  In the pure resource model a present resource
stats successfully and an absent one fails with "does not exist". -/
def FileLock.GetLockState (_f : FileLock) (store : Option (List Nat)) : LockState :=
  match store with
  | none => .unlocked
  | some _ => .locked

/-- Result of `HeadObject` against the lock object: success, or one of the
failure shapes (the object being absent, or any other API failure). -/
inductive HeadObjectResult where
  | success
  | notFound
  | apiFailure (code : Nat)
deriving DecidableEq, Repr

/-- `S3ObjectLock.GetLockState` (src/s3.go): any `HeadObject` error —
absent object or any other API failure — is discarded and mapped to
`(Unlocked, nil)`; a successful head yields `(Locked, nil)`. -/
def S3ObjectLock.GetLockState (head : HeadObjectResult) : LockState × Option HeadObjectResult :=
  match head with
  | .success => (.locked, none)
  | _ => (.unlocked, none)

/-- The sleep of one polling iteration of `WaitForLock`
(src/file.go, src/s3.go): `1*time.Second + time.Duration(r)*time.Millisecond`
with `r := rand.Intn(100)`, in nanoseconds.  The jitter stream is an
arbitrary function; `% 100` reflects `rand.Intn(100) ∈ [0, 100)`. -/
def sleepNanos (j : Nat) : Nat := 1000000000 + j % 100 * 1000000

/-- Outcome of the `WaitForLock` polling loop. -/
inductive WaitOutcome where
  /-- returned `nil` after observing Unlocked at poll number `iters` -/
  | success (iters : Nat)
  /-- `"unable to obtain lock after %s: %w"`, rendering the duration
  `reported` and wrapping `ctx.Err()` (the cancellation cause) -/
  | timeoutErr (reported : Int)
  /-- fuel exhausted: the loop is still polling at elapsed time `t`
  (models the unbounded wait / external cancellation case) -/
  | stillPolling (t : Nat)
deriving DecidableEq, Repr

/-- The loop of `S3ObjectLock.WaitForLock` (src/s3.go): each iteration
first takes the `ctx.Done()` branch when the deadline `d` (if positive) has
elapsed, returning the timeout error that renders `cfg = l.GetTimeout()`;
otherwise it polls the lock state (`poll k` at iteration `k`) — in s3.go
the state query's error is discarded (`lockState, _ := l.GetLockState()`)
so the poll yields only a state — returns success on Unlocked, and on
Locked/Unknown sleeps `sleepNanos (jitter k)` and retries.  `t` is the
elapsed time in nanoseconds since the context was created; `fuel` bounds
the unrolling of the unbounded Go loop.  `FileLock.WaitForLock`
(src/file.go) differs — a non-nil state-query error returns immediately —
and is embedded separately as `fileWaitLoop`. -/
def waitLoop (cfg : Int) (d : Int) (poll : Nat → LockState) (jitter : Nat → Nat) :
    Nat → Nat → Nat → WaitOutcome
  | 0, _, t => .stillPolling t
  | fuel + 1, k, t =>
    if 0 < d ∧ d ≤ (t : Int) then .timeoutErr cfg
    else
      match poll k with
      | .unlocked => .success k
      | _ => waitLoop cfg d poll jitter fuel (k + 1) (t + sleepNanos (jitter k))

/-- `S3ObjectLock.WaitForLock(timeout)` (src/s3.go): run the polling loop
from iteration 0 and elapsed time 0, with the handle's configured
`l.GetTimeout()` as the duration rendered in the timeout error. -/
def SafeLock.WaitForLock (l : SafeLock) (d : Int) (poll : Nat → LockState)
    (jitter : Nat → Nat) (fuel : Nat) : WaitOutcome :=
  waitLoop l.GetTimeout d poll jitter fuel 0 0

/-- Result of one `fs.Stat` call against the lock file: the file exists,
the stat fails with "does not exist", or the stat fails with any other
error (e.g. a permission failure). -/
inductive StatResult where
  | present
  | absent
  | statFailure (code : Nat)
deriving DecidableEq, Repr

/-- `FileLock.GetLockState` (src/file.go) in full, as (state, whether the
returned error is non-nil): stat success ⇒ `(Locked, nil)`; a "does not
exist" failure ⇒ `(Unlocked, nil)` (error discarded); any other stat error
⇒ `(Unknown, errStat)`.  The error is non-nil exactly when the state is
Unknown. -/
def fileGetLockState : StatResult → LockState × Bool
  | .present => (.locked, false)
  | .absent => (.unlocked, false)
  | .statFailure _ => (.unknown, true)

/-- Outcome of the `FileLock.WaitForLock` polling loop. -/
inductive FileWaitOutcome where
  /-- returned `nil` after observing Unlocked at poll number `iters` -/
  | success (iters : Nat)
  /-- `"unable to obtain lock after %s: %w"`, rendering the duration
  `reported` and wrapping `ctx.Err()` (the cancellation cause) -/
  | timeoutErr (reported : Int)
  /-- returned `errGetLockState` from the state query of poll `iters`
  (file.go: `if errGetLockState != nil { return errGetLockState }`) -/
  | statErr (iters : Nat)
  /-- fuel exhausted: the loop is still polling at elapsed time `t` -/
  | stillPolling (t : Nat)
deriving DecidableEq, Repr

/-- The loop of `FileLock.WaitForLock` (src/file.go): as `waitLoop`, except
that each iteration's state query returns `(state, err)` and a non-nil
`err` is returned immediately; only then does the switch run — success on
Unlocked, sleep and retry on Locked/Unknown (the Unknown arm of the switch
is unreachable, since Unknown coincides with a non-nil error). -/
def fileWaitLoop (cfg : Int) (d : Int) (poll : Nat → StatResult) (jitter : Nat → Nat) :
    Nat → Nat → Nat → FileWaitOutcome
  | 0, _, t => .stillPolling t
  | fuel + 1, k, t =>
    if 0 < d ∧ d ≤ (t : Int) then .timeoutErr cfg
    else
      match fileGetLockState (poll k) with
      | (lockState, err) =>
        if err then .statErr k
        else
          match lockState with
          | .unlocked => .success k
          | _ => fileWaitLoop cfg d poll jitter fuel (k + 1) (t + sleepNanos (jitter k))

/-- `FileLock.WaitForLock(timeout)` (src/file.go): run the file-backend
polling loop from iteration 0 and elapsed time 0, with the handle's
configured `GetTimeout()` as the duration rendered in the timeout error. -/
def FileLock.WaitForLock (f : FileLock) (d : Int) (poll : Nat → StatResult)
    (jitter : Nat → Nat) (fuel : Nat) : FileWaitOutcome :=
  fileWaitLoop f.safeLock.GetTimeout d poll jitter fuel 0 0

theorem splitNL_ne_nil (a : List Nat) : splitNL a ≠ [] := by
  induction a with
  | nil => simp [splitNL]
  | cons c rest ih =>
    simp only [splitNL]
    split
    · simp
    · cases h : splitNL rest with
      | nil => simp
      | cons p ps => simp

theorem splitNL_noNL (a : List Nat) (h : noNL a) : splitNL a = [a] := by
  induction a with
  | nil => rfl
  | cons c rest ih =>
    have hc : c ≠ 10 := h c (by simp)
    have hrest : noNL rest := fun x hx => h x (by simp [hx])
    simp only [splitNL, if_neg hc, ih hrest]

theorem splitNL_append10 (a b : List Nat) (h : noNL a) :
    splitNL (a ++ 10 :: b) = a :: splitNL b := by
  induction a with
  | nil => simp [splitNL]
  | cons c rest ih =>
    have hc : c ≠ 10 := h c (by simp)
    have hrest : noNL rest := fun x hx => h x (by simp [hx])
    simp only [List.cons_append, splitNL, if_neg hc]
    rw [show rest.append (10 :: b) = rest ++ 10 :: b from rfl, ih hrest]

theorem uint64LE_putUint64LE (v : Nat) :
    uint64LE (putUint64LE v) = some (v % 2 ^ 64) := by
  simp only [putUint64LE, uint64LE, Option.some.injEq]
  omega

theorem uint64LE_short {b : List Nat} (h : b.length < 8) : uint64LE b = none := by
  match b, h with
  | [], _ => rfl
  | [_], _ => rfl
  | [_, _], _ => rfl
  | [_, _, _], _ => rfl
  | [_, _, _, _], _ => rfl
  | [_, _, _, _, _], _ => rfl
  | [_, _, _, _, _, _], _ => rfl
  | [_, _, _, _, _, _, _], _ => rfl
  | _ :: _ :: _ :: _ :: _ :: _ :: _ :: _ :: _, h => exact absurd h (by simp)

theorem putUint16LE_inj {a b : Nat} (ha : a < 2 ^ 16) (hb : b < 2 ^ 16) :
    putUint16LE a = putUint16LE b ↔ a = b := by
  constructor
  · intro h
    simp only [putUint16LE, List.cons.injEq, and_true] at h
    omega
  · intro h; rw [h]

theorem putUint64LE_inj {a b : Nat} (ha : a < 2 ^ 64) (hb : b < 2 ^ 64) :
    putUint64LE a = putUint64LE b ↔ a = b := by
  constructor
  · intro h
    simp only [putUint64LE, List.cons.injEq, and_true] at h
    omega
  · intro h; rw [h]

theorem GetLockBody_eq_encodeRecord (l : SafeLock) (wt : Nat) (h : wt < 2 ^ 64) :
    l.GetLockBody wt = encodeRecord l.node l.id wt := by
  simp only [SafeLock.GetLockBody, encodeRecord, SafeLock.GetNodeBytes, SafeLock.GetIDBytes,
    Nat.mod_eq_of_lt h]

/-- Splitting an encoded record whose three fields are newline-free yields
exactly the three fields. -/
theorem splitNL_encodeRecord (rn rs rt : Nat)
    (h0 : noNL (putUint16LE rn)) (h1 : noNL (putUint64LE rs))
    (h2 : noNL (putUint64LE rt)) :
    splitNL (encodeRecord rn rs rt) =
      [putUint16LE rn, putUint64LE rs, putUint64LE rt] := by
  have e : encodeRecord rn rs rt =
      putUint16LE rn ++ 10 :: (putUint64LE rs ++ 10 :: putUint64LE rt) := rfl
  rw [e, splitNL_append10 _ _ h0, splitNL_append10 _ _ h1, splitNL_noNL _ h2]

/-- What `lockStatus` returns on a record encoded from the representable
triple `(rn, rs, rt)` whose field encodings are newline-free. -/
theorem lockStatus_encodeRecord (l : SafeLock) (rn rs rt : Nat) (now : Int)
    (hln : l.node < 2 ^ 16) (hli : l.id < 2 ^ 64)
    (hrn : rn < 2 ^ 16) (hrs : rs < 2 ^ 64) (hrt : rt < 2 ^ 63)
    (h0 : noNL (putUint16LE rn)) (h1 : noNL (putUint64LE rs))
    (h2 : noNL (putUint64LE rt)) :
    l.lockStatus (encodeRecord rn rs rt) now =
      .ok (decide (rn = l.node)) (decide (rs = l.id))
        (decide (0 < l.timeout ∧ now - (rt : Int) > l.timeout)) := by
  have hmod : rt % 2 ^ 64 = rt := Nat.mod_eq_of_lt (by omega)
  have hts : toInt64 rt = (rt : Int) := by
    simp only [toInt64, hmod]
    rw [if_pos (by omega)]
  have hnode : decide (putUint16LE rn = l.GetNodeBytes) = decide (rn = l.node) := by
    apply decide_eq_decide.mpr
    exact putUint16LE_inj hrn hln
  have hsess : decide (putUint64LE rs = l.GetIDBytes) = decide (rs = l.id) := by
    apply decide_eq_decide.mpr
    exact putUint64LE_inj hrs hli
  unfold SafeLock.lockStatus
  rw [splitNL_encodeRecord rn rs rt h0 h1 h2]
  dsimp only
  by_cases ht : 0 < l.timeout
  · rw [if_pos ht]
    rw [uint64LE_putUint64LE rt, hmod]
    simp only [hts, hnode, hsess, StatusResult.ok.injEq]
    refine ⟨trivial, trivial, ?_⟩
    apply decide_eq_decide.mpr
    constructor
    · intro h; exact ⟨ht, h⟩
    · intro h; exact h.2
  · rw [if_neg ht]
    simp only [hnode, hsess, StatusResult.ok.injEq]
    refine ⟨trivial, trivial, ?_⟩
    have : ¬(0 < l.timeout ∧ now - (rt : Int) > l.timeout) := fun h => ht h.1
    simp [this]

/-- A timeout outcome of the polling loop always reports the configured
duration `cfg` (the code renders `l.GetTimeout()` in the error message). -/
theorem waitLoop_timeoutErr_reported (cfg d : Int) (poll : Nat → LockState)
    (jitter : Nat → Nat) :
    ∀ fuel k t r, waitLoop cfg d poll jitter fuel k t = .timeoutErr r → r = cfg := by
  intro fuel
  induction fuel with
  | zero =>
    intro k t r h
    simp [waitLoop] at h
  | succ n ih =>
    intro k t r h
    rw [waitLoop] at h
    split at h
    · injection h with h2
      exact h2.symm
    · cases hp : poll k <;> rw [hp] at h
      · exact ih _ _ _ h
      · simp at h
      · exact ih _ _ _ h

/-- With a non-positive wait duration the loop can never take the deadline
branch. -/
theorem waitLoop_no_timeout_of_nonpos (cfg : Int) {d : Int} (hd : d ≤ 0)
    (poll : Nat → LockState) (jitter : Nat → Nat) :
    ∀ fuel k t r, waitLoop cfg d poll jitter fuel k t ≠ .timeoutErr r := by
  intro fuel
  induction fuel with
  | zero =>
    intro k t r h
    simp [waitLoop] at h
  | succ n ih =>
    intro k t r h
    rw [waitLoop] at h
    rw [if_neg (by omega : ¬(0 < d ∧ d ≤ (t : Int)))] at h
    cases hp : poll k <;> rw [hp] at h
    · exact ih _ _ _ h
    · simp at h
    · exact ih _ _ _ h

/-- When the deadline is positive and no poll ever observes Unlocked, the
loop reaches the deadline: each sleep advances elapsed time by at least one
second, so `fuel` extra iterations past elapsed time `t` suffice once
`d ≤ t + fuel seconds`. -/
theorem waitLoop_timeout_of_never_unlocked (cfg : Int) {d : Int} (hd : 0 < d)
    (poll : Nat → LockState) (jitter : Nat → Nat)
    (hp : ∀ j, poll j ≠ .unlocked) :
    ∀ (fuel k t : Nat), d ≤ (t : Int) + (fuel : Int) * 1000000000 →
      waitLoop cfg d poll jitter (fuel + 1) k t = .timeoutErr cfg := by
  intro fuel
  induction fuel with
  | zero =>
    intro k t hb
    rw [waitLoop, if_pos ⟨hd, by simpa using hb⟩]
  | succ n ih =>
    intro k t hb
    by_cases hdt : d ≤ (t : Int)
    · rw [waitLoop, if_pos ⟨hd, hdt⟩]
    · rw [waitLoop, if_neg (by tauto)]
      have hsleep : 1000000000 ≤ sleepNanos (jitter k) := by
        unfold sleepNanos; omega
      have hb2 : d ≤ ((t + sleepNanos (jitter k) : Nat) : Int) + n * 1000000000 := by
        push_cast
        push_cast at hb
        omega
      cases hpk : poll k
      · exact ih (k + 1) (t + sleepNanos (jitter k)) hb2
      · exact absurd hpk (hp k)
      · exact ih (k + 1) (t + sleepNanos (jitter k)) hb2

/-- With a non-positive wait duration the file-backend loop can never take
the deadline branch either. -/
theorem fileWaitLoop_no_timeout_of_nonpos (cfg : Int) {d : Int} (hd : d ≤ 0)
    (poll : Nat → StatResult) (jitter : Nat → Nat) :
    ∀ fuel k t r, fileWaitLoop cfg d poll jitter fuel k t ≠ .timeoutErr r := by
  intro fuel
  induction fuel with
  | zero =>
    intro k t r h
    simp [fileWaitLoop] at h
  | succ n ih =>
    intro k t r h
    rw [fileWaitLoop] at h
    rw [if_neg (by omega : ¬(0 < d ∧ d ≤ (t : Int)))] at h
    cases hp : poll k <;> rw [hp] at h <;> simp [fileGetLockState] at h
    · exact ih _ _ _ h

/-- When the deadline is positive and every stat observes the lock file
present (state Locked, nil error), the file-backend loop reaches the
deadline, by the same one-second-per-sleep bound as the S3 loop. -/
theorem fileWaitLoop_timeout_of_present (cfg : Int) {d : Int} (hd : 0 < d)
    (poll : Nat → StatResult) (jitter : Nat → Nat)
    (hp : ∀ j, poll j = .present) :
    ∀ (fuel k t : Nat), d ≤ (t : Int) + (fuel : Int) * 1000000000 →
      fileWaitLoop cfg d poll jitter (fuel + 1) k t = .timeoutErr cfg := by
  intro fuel
  induction fuel with
  | zero =>
    intro k t hb
    rw [fileWaitLoop, if_pos ⟨hd, by simpa using hb⟩]
  | succ n ih =>
    intro k t hb
    by_cases hdt : d ≤ (t : Int)
    · rw [fileWaitLoop, if_pos ⟨hd, hdt⟩]
    · rw [fileWaitLoop, if_neg (by tauto), hp k]
      have hb2 : d ≤ ((t + sleepNanos (jitter k) : Nat) : Int) + (n : Int) * 1000000000 := by
        unfold sleepNanos
        push_cast
        push_cast at hb
        omega
      simpa [fileGetLockState] using ih (k + 1) (t + sleepNanos (jitter k)) hb2

/-- The repair condition of the acquisition path, as the code computes it
from the decoded booleans, coincides with the condition on the stored
values. -/
theorem repair_cond_eq (l : SafeLock) (rn rs rt : Nat) (now : Int) :
    ((decide (rn = l.node) && !decide (rs = l.id)) ||
        decide (0 < l.timeout ∧ now - (rt : Int) > l.timeout)) = true ↔
      ((rn = l.node ∧ rs ≠ l.id) ∨ (0 < l.timeout ∧ now - (rt : Int) > l.timeout)) := by
  simp only [Bool.or_eq_true, Bool.and_eq_true, Bool.not_eq_true', decide_eq_true_eq,
    decide_eq_false_iff_not, ne_eq]

/-- C1: For every lock handle (node `l.node`, session `l.id`, lease timeout
`l.timeout`) over either backend: when the lock resource is absent
(Unlocked), `Lock()` writes a fresh record `GetLockBody` and succeeds; when
it is present (Locked) holding the record encoded from `(rn, rs, rt)`,
`Lock()` removes that record and writes a fresh one exactly when
`(rn = node ∧ rs ≠ session) ∨ (timeout > 0 ∧ now − rt > timeout)`, and
otherwise fails with the already-locked error, leaving the store
unchanged. -/
theorem C1_lock_acquisition (l : SafeLock) (rn rs rt : Nat) (now : Int) (wt : Nat)
    (hln : l.node < 2 ^ 16) (hli : l.id < 2 ^ 64)
    (hrn : rn < 2 ^ 16) (hrs : rs < 2 ^ 64) (hrt : rt < 2 ^ 63)
    (h0 : noNL (putUint16LE rn)) (h1 : noNL (putUint64LE rs))
    (h2 : noNL (putUint64LE rt)) :
    (l.lockOp none now wt = .ok (some (l.GetLockBody wt)))
    ∧ (((rn = l.node ∧ rs ≠ l.id) ∨ (0 < l.timeout ∧ now - (rt : Int) > l.timeout)) →
        l.lockOp (some (encodeRecord rn rs rt)) now wt = .ok (some (l.GetLockBody wt)))
    ∧ (¬((rn = l.node ∧ rs ≠ l.id) ∨ (0 < l.timeout ∧ now - (rt : Int) > l.timeout)) →
        l.lockOp (some (encodeRecord rn rs rt)) now wt
          = .err .alreadyLocked (some (encodeRecord rn rs rt))) := by
  refine ⟨rfl, ?_, ?_⟩
  · intro h
    unfold SafeLock.lockOp
    dsimp only
    rw [lockStatus_encodeRecord l rn rs rt now hln hli hrn hrs hrt h0 h1 h2]
    dsimp only
    rw [if_pos ((repair_cond_eq l rn rs rt now).mpr h)]
  · intro h
    unfold SafeLock.lockOp
    dsimp only
    rw [lockStatus_encodeRecord l rn rs rt now hln hli hrn hrs hrt h0 h1 h2]
    dsimp only
    rw [if_neg (fun hc => h ((repair_cond_eq l rn rs rt now).mp hc))]

/-- Witness for C1 at concrete inputs: a handle (node 1, session 5,
timeout 0) acquiring over an absent resource, and over a record left by an
earlier session (node 1, session 6) of the same node — deadlock repair. -/
theorem C1_lock_acquisition_witness :
    SafeLock.lockOp ⟨1, 5, ".lock", 0⟩ none 0 0
        = .ok (some (SafeLock.GetLockBody ⟨1, 5, ".lock", 0⟩ 0))
    ∧ SafeLock.lockOp ⟨1, 5, ".lock", 0⟩ (some (encodeRecord 1 6 0)) 0 0
        = .ok (some (SafeLock.GetLockBody ⟨1, 5, ".lock", 0⟩ 0)) := by
  have h := C1_lock_acquisition ⟨1, 5, ".lock", 0⟩ 1 6 0 0 0
    (by decide) (by decide) (by decide) (by decide) (by decide)
    (by decide) (by decide) (by decide)
  exact ⟨h.1, h.2.1 (Or.inl ⟨rfl, by decide⟩)⟩

/-- C2: For every handle over either backend: `Unlock()` on an absent
(Unlocked) resource fails with the not-locked error; on a present record
encoded from `(rn, rs, rt)`, if `rn` differs from the handle's node and the
record is not expired it fails with the not-owned error and the record
stays in place; otherwise (node matches — even with a different session —
or the record is expired) it removes the record and succeeds. -/
theorem C2_unlock_release (l : SafeLock) (rn rs rt : Nat) (now : Int)
    (hln : l.node < 2 ^ 16) (hli : l.id < 2 ^ 64)
    (hrn : rn < 2 ^ 16) (hrs : rs < 2 ^ 64) (hrt : rt < 2 ^ 63)
    (h0 : noNL (putUint16LE rn)) (h1 : noNL (putUint64LE rs))
    (h2 : noNL (putUint64LE rt)) :
    (l.unlockOp none now = .err .notLocked none)
    ∧ ((rn ≠ l.node ∧ ¬(0 < l.timeout ∧ now - (rt : Int) > l.timeout)) →
        l.unlockOp (some (encodeRecord rn rs rt)) now
          = .err .notOwned (some (encodeRecord rn rs rt)))
    ∧ ((rn = l.node ∨ (0 < l.timeout ∧ now - (rt : Int) > l.timeout)) →
        l.unlockOp (some (encodeRecord rn rs rt)) now = .ok none) := by
  refine ⟨rfl, ?_, ?_⟩
  · intro h
    unfold SafeLock.unlockOp
    dsimp only
    rw [lockStatus_encodeRecord l rn rs rt now hln hli hrn hrs hrt h0 h1 h2]
    dsimp only
    have hcond : (!decide (rn = l.node) &&
        !decide (0 < l.timeout ∧ now - (rt : Int) > l.timeout)) = true := by
      simp only [Bool.and_eq_true, Bool.not_eq_true', decide_eq_false_iff_not]
      exact ⟨h.1, h.2⟩
    rw [if_pos hcond]
  · intro h
    unfold SafeLock.unlockOp
    dsimp only
    rw [lockStatus_encodeRecord l rn rs rt now hln hli hrn hrs hrt h0 h1 h2]
    dsimp only
    have hcond : ¬((!decide (rn = l.node) &&
        !decide (0 < l.timeout ∧ now - (rt : Int) > l.timeout)) = true) := by
      simp only [Bool.and_eq_true, Bool.not_eq_true', decide_eq_false_iff_not]
      rintro ⟨hc1, hc2⟩
      rcases h with h | h
      · exact hc1 h
      · exact hc2 h
    rw [if_neg hcond]

/-- Witness for C2 at concrete inputs: unlocking an absent resource fails
not-locked; node 2's non-expired record makes the handle (node 1) fail
not-owned; node 1's own record from another session is removed. -/
theorem C2_unlock_release_witness :
    SafeLock.unlockOp ⟨1, 5, ".lock", 0⟩ none 0 = .err .notLocked none
    ∧ SafeLock.unlockOp ⟨1, 5, ".lock", 0⟩ (some (encodeRecord 2 6 0)) 0
        = .err .notOwned (some (encodeRecord 2 6 0))
    ∧ SafeLock.unlockOp ⟨1, 5, ".lock", 0⟩ (some (encodeRecord 1 6 0)) 0 = .ok none := by
  have ha := C2_unlock_release ⟨1, 5, ".lock", 0⟩ 2 6 0 0
    (by decide) (by decide) (by decide) (by decide) (by decide)
    (by decide) (by decide) (by decide)
  have hb := C2_unlock_release ⟨1, 5, ".lock", 0⟩ 1 6 0 0
    (by decide) (by decide) (by decide) (by decide) (by decide)
    (by decide) (by decide) (by decide)
  exact ⟨ha.1, ha.2.1 ⟨by decide, by decide⟩, hb.2.2 (Or.inl rfl)⟩

/-- C3 counterexample: the claim asserts exact round-trip for every
representable triple, including values whose binary encodings contain the
byte `0x0A`.  For node 10 the 2-byte encoding is `[0x0A, 0x00]`, the split
produces four segments, and the decode step rejects the record instead of
recovering the triple. -/
theorem C3_roundtrip_counterexample :
    decodeRecord (encodeRecord 10 0 0) = none := by decide

/-- C3 (amended): for every representable triple whose field encodings
contain no `0x0A` byte, the newline-split decode recovers exactly the three
encoded fields (and the numeric session and timestamp decode back to the
written values). -/
theorem C3_roundtrip_amended (rn rs rt : Nat)
    (_hrn : rn < 2 ^ 16) (hrs : rs < 2 ^ 64) (hrt : rt < 2 ^ 64)
    (h0 : noNL (putUint16LE rn)) (h1 : noNL (putUint64LE rs))
    (h2 : noNL (putUint64LE rt)) :
    decodeRecord (encodeRecord rn rs rt)
        = some (putUint16LE rn, putUint64LE rs, putUint64LE rt)
    ∧ uint64LE (putUint64LE rs) = some rs
    ∧ uint64LE (putUint64LE rt) = some rt := by
  refine ⟨?_, ?_, ?_⟩
  · unfold decodeRecord
    rw [splitNL_encodeRecord rn rs rt h0 h1 h2]
  · rw [uint64LE_putUint64LE, Nat.mod_eq_of_lt hrs]
  · rw [uint64LE_putUint64LE, Nat.mod_eq_of_lt hrt]

/-- Witness for the amended C3 at the concrete triple (1, 2, 3). -/
theorem C3_roundtrip_amended_witness :
    decodeRecord (encodeRecord 1 2 3)
        = some (putUint16LE 1, putUint64LE 2, putUint64LE 3)
    ∧ uint64LE (putUint64LE 2) = some 2
    ∧ uint64LE (putUint64LE 3) = some 3 :=
  C3_roundtrip_amended 1 2 3 (by decide) (by decide) (by decide)
    (by decide) (by decide) (by decide)

/-- C4 counterexample: a stored record with exactly three newline-delimited
segments of the wrong widths (1, 1, 8 instead of 2, 8, 8) is not rejected
as a format error — `lockStatus` decodes it, merely reporting non-ownership. -/
theorem C4_width_counterexample :
    SafeLock.lockStatus ⟨0, 0, ".lock", 0⟩ [1, 10, 2, 10, 0, 0, 0, 0, 0, 0, 0, 0] 0
        = .ok false false false
    ∧ SafeLock.lockStatus ⟨0, 0, ".lock", 0⟩ [1, 10, 2, 10, 0, 0, 0, 0, 0, 0, 0, 0] 0
        ≠ .formatError := by decide

/-- C4 (amended): the decode step used by Lock and Unlock fails with the
format error exactly when the input does not split into three
newline-delimited segments; segment widths are never checked (wrong-width
node/session segments merely compare unequal, and a short timestamp
segment panics when the timeout is positive — see C9). -/
theorem C4_format_gate (l : SafeLock) (body : List Nat) (now : Int) :
    l.lockStatus body now = .formatError ↔ (splitNL body).length ≠ 3 := by
  unfold SafeLock.lockStatus
  rcases hs : splitNL body with _ | ⟨p0, _ | ⟨p1, _ | ⟨p2, _ | ⟨p3, t⟩⟩⟩⟩
  · simp
  · simp
  · simp
  · dsimp only
    constructor
    · intro hc
      by_cases ht : 0 < l.timeout
      · rw [if_pos ht] at hc
        cases hu : uint64LE p2 <;> rw [hu] at hc <;> simp at hc
      · rw [if_neg ht] at hc
        simp at hc
    · intro hl
      simp at hl
  · simp

/-- C5: the object-storage exists check maps every `HeadObject` failure —
the object being absent or any other API failure — to (Unlocked, no
error), returns Locked exactly when the head call succeeds, and never
returns Unknown or propagates an error. -/
theorem C5_s3_exists_check (h : HeadObjectResult) :
    (S3ObjectLock.GetLockState h).2 = none
    ∧ (S3ObjectLock.GetLockState h).1 ≠ .unknown
    ∧ ((S3ObjectLock.GetLockState h).1 = .locked ↔ h = .success)
    ∧ ((S3ObjectLock.GetLockState h).1 = .unlocked ↔ h ≠ .success) := by
  cases h <;> simp [S3ObjectLock.GetLockState]

/-- C6: for either backend, `ForceUnlock()` fails with the not-locked
error exactly when the resource is absent, and whenever it is present the
stored record is removed unconditionally, whatever its bytes — the record
is never read and no identity is compared. -/
theorem C6_forceUnlock_unconditional (l : SafeLock) :
    l.forceUnlockOp none = .err .notLocked none
    ∧ ∀ body : List Nat, l.forceUnlockOp (some body) = .ok none :=
  ⟨rfl, fun _ => rfl⟩

/-- C7 counterexample: for the file backend the Locked-or-Unknown clause
of the claim fails.  With a positive deadline (2 s) and every poll
observing Unknown (the stat fails with an error other than "does not
exist"), `FileLock.WaitForLock` returns the stat error from the very first
poll — it neither keeps polling nor returns a Timeout at the deadline. -/
theorem C7_unknown_poll_counterexample :
    FileLock.WaitForLock ⟨⟨0, 0, ".lock", 5⟩, "file.txt"⟩ 2000000000
        (fun _ => .statFailure 13) (fun _ => 0) 3 = .statErr 0
    ∧ (fileGetLockState (.statFailure 13)).1 = .unknown
    ∧ ∀ r, FileLock.WaitForLock ⟨⟨0, 0, ".lock", 5⟩, "file.txt"⟩ 2000000000
        (fun _ => .statFailure 13) (fun _ => 0) 3 ≠ .timeoutErr r := by
  refine ⟨by decide, by decide, ?_⟩
  intro r h
  rw [show FileLock.WaitForLock ⟨⟨0, 0, ".lock", 5⟩, "file.txt"⟩ 2000000000
      (fun _ => StatResult.statFailure 13) (fun _ => 0) 3
      = FileWaitOutcome.statErr 0 by decide] at h
  exact absurd h (by simp)

/-- C7 (amended): for every wait duration `d`, either loop returns success
as soon as a poll observes Unlocked.  For the object-storage backend —
whose loop discards the state-query error — if `d > 0` and every poll
observes Locked or Unknown the loop stops at the deadline with the timeout
error (wrapping the cancellation cause), and if `d ≤ 0` it never returns a
timeout.  For the filesystem backend a poll whose stat fails (state
Unknown) returns the stat error immediately; if `d > 0` and every poll
observes Locked the loop stops at the deadline with the timeout error, and
if `d ≤ 0` it never returns a timeout. -/
theorem C7_wait_polling_amended (l : SafeLock) (f : FileLock) (d : Int)
    (poll : Nat → LockState) (fpoll : Nat → StatResult) (jitter : Nat → Nat) :
    (∀ (fuel k t : Nat), ¬(0 < d ∧ d ≤ (t : Int)) → poll k = .unlocked →
        waitLoop l.GetTimeout d poll jitter (fuel + 1) k t = .success k)
    ∧ (0 < d → (∀ j, poll j ≠ .unlocked) →
        ∃ fuel, l.WaitForLock d poll jitter fuel = .timeoutErr l.GetTimeout)
    ∧ (d ≤ 0 → ∀ fuel r, l.WaitForLock d poll jitter fuel ≠ .timeoutErr r)
    ∧ (∀ (fuel k t : Nat), ¬(0 < d ∧ d ≤ (t : Int)) → fpoll k = .absent →
        fileWaitLoop f.safeLock.GetTimeout d fpoll jitter (fuel + 1) k t = .success k)
    ∧ (∀ (fuel k t code : Nat), ¬(0 < d ∧ d ≤ (t : Int)) → fpoll k = .statFailure code →
        fileWaitLoop f.safeLock.GetTimeout d fpoll jitter (fuel + 1) k t = .statErr k)
    ∧ (0 < d → (∀ j, fpoll j = .present) →
        ∃ fuel, f.WaitForLock d fpoll jitter fuel = .timeoutErr f.safeLock.GetTimeout)
    ∧ (d ≤ 0 → ∀ fuel r, f.WaitForLock d fpoll jitter fuel ≠ .timeoutErr r) := by
  refine ⟨?_, ?_, ?_, ?_, ?_, ?_, ?_⟩
  · intro fuel k t hnd hpk
    rw [waitLoop, if_neg hnd, hpk]
  · intro hd hp
    refine ⟨d.toNat / 1000000000 + 1 + 1, ?_⟩
    unfold SafeLock.WaitForLock
    apply waitLoop_timeout_of_never_unlocked l.GetTimeout hd poll jitter hp
    push_cast
    omega
  · intro hd fuel r
    unfold SafeLock.WaitForLock
    exact waitLoop_no_timeout_of_nonpos l.GetTimeout hd poll jitter fuel 0 0 r
  · intro fuel k t hnd hpk
    rw [fileWaitLoop, if_neg hnd, hpk]
    rfl
  · intro fuel k t code hnd hpk
    rw [fileWaitLoop, if_neg hnd, hpk]
    rfl
  · intro hd hp
    refine ⟨d.toNat / 1000000000 + 1 + 1, ?_⟩
    unfold FileLock.WaitForLock
    apply fileWaitLoop_timeout_of_present f.safeLock.GetTimeout hd fpoll jitter hp
    push_cast
    omega
  · intro hd fuel r
    unfold FileLock.WaitForLock
    exact fileWaitLoop_no_timeout_of_nonpos f.safeLock.GetTimeout hd fpoll jitter fuel 0 0 r

/-- Witness for the amended C7: a permanently Locked resource under a
2-second deadline times out in both loops, and an Unlocked first poll
succeeds at once in both loops. -/
theorem C7_wait_polling_amended_witness :
    waitLoop (SafeLock.GetTimeout ⟨0, 0, ".lock", 5⟩) 2000000000
        (fun _ => .unlocked) (fun _ => 0) 1 0 0 = .success 0
    ∧ (∃ fuel, SafeLock.WaitForLock ⟨0, 0, ".lock", 5⟩ 2000000000
        (fun _ => .locked) (fun _ => 0) fuel = .timeoutErr 5)
    ∧ fileWaitLoop (SafeLock.GetTimeout ⟨0, 0, ".lock", 5⟩) 2000000000
        (fun _ => .absent) (fun _ => 0) 1 0 0 = .success 0
    ∧ (∃ fuel, FileLock.WaitForLock ⟨⟨0, 0, ".lock", 5⟩, "file.txt"⟩ 2000000000
        (fun _ => .present) (fun _ => 0) fuel = .timeoutErr 5) := by
  have hs := C7_wait_polling_amended ⟨0, 0, ".lock", 5⟩ ⟨⟨0, 0, ".lock", 5⟩, "file.txt"⟩
    2000000000 (fun _ => LockState.locked) (fun _ => StatResult.present) (fun _ => 0)
  have hu := C7_wait_polling_amended ⟨0, 0, ".lock", 5⟩ ⟨⟨0, 0, ".lock", 5⟩, "file.txt"⟩
    2000000000 (fun _ => LockState.unlocked) (fun _ => StatResult.absent) (fun _ => 0)
  refine ⟨hu.1 0 0 0 (by decide) rfl, hs.2.1 (by decide) (fun j => by simp),
    hu.2.2.2.1 0 0 0 (by decide) rfl, hs.2.2.2.2.2.1 (by decide) (fun j => rfl)⟩

/-- C8 counterexample: for the file lock over path "file.txt" with the
default suffix, `GetLockFilename` is "file.txt.lock" but `GetLockURI` —
promoted from the embedded `SafeLock`, since src/file.go defines no
override — returns the empty string, not the lock resource path. -/
theorem C8_lockURI_counterexample :
    FileLock.GetLockURI ⟨⟨0, 0, ".lock", 0⟩, "file.txt"⟩ = ""
    ∧ FileLock.GetLockURI ⟨⟨0, 0, ".lock", 0⟩, "file.txt"⟩
        ≠ FileLock.GetLockFilename ⟨⟨0, 0, ".lock", 0⟩, "file.txt"⟩
    ∧ FileLock.GetLockFilename ⟨⟨0, 0, ".lock", 0⟩, "file.txt"⟩ = "file.txt.lock" := by
  refine ⟨rfl, ?_, rfl⟩
  decide

/-- C8 (amended): `GetLockFilename` exposes the lock resource path
verbatim — the resource path followed by the suffix — while `GetLockURI`
on the filesystem backend is not overridden and always returns the empty
string. -/
theorem C8_uri_accessors_amended (sl : SafeLock) (name : String) :
    FileLock.GetLockFilename ⟨sl, name⟩ = name ++ sl.lockSuffix
    ∧ FileLock.GetLockURI ⟨sl, name⟩ = "" :=
  ⟨rfl, rfl⟩

/-- C9: for every handle with a positive lease timeout and every stored
record that splits into exactly three newline-delimited segments whose
third segment is shorter than 8 bytes, the record-decoding step used by
Lock and Unlock reaches the out-of-range access in
`binary.LittleEndian.Uint64` and panics instead of returning a format
error. -/
theorem C9_short_timestamp_panics (l : SafeLock) (body p0 p1 p2 : List Nat)
    (now : Int) (ht : 0 < l.timeout) (hsplit : splitNL body = [p0, p1, p2])
    (hlen : p2.length < 8) :
    l.lockStatus body now = .panicked := by
  unfold SafeLock.lockStatus
  rw [hsplit]
  dsimp only
  rw [if_pos ht, uint64LE_short hlen]

/-- Witness for C9: a record with a 2-byte node segment, an 8-byte session
segment and a 1-byte timestamp segment panics under a handle with a
1-nanosecond lease timeout. -/
theorem C9_short_timestamp_panics_witness :
    SafeLock.lockStatus ⟨0, 0, ".lock", 1⟩
        [0, 0, 10, 0, 0, 0, 0, 0, 0, 0, 0, 10, 0] 0 = .panicked :=
  C9_short_timestamp_panics ⟨0, 0, ".lock", 1⟩ _ [0, 0]
    [0, 0, 0, 0, 0, 0, 0, 0] [0] 0 (by decide) (by decide) (by decide)

/-- C10: whenever the wait loop hits its deadline, the duration rendered in
the timeout error is the handle configured lease timeout `GetTimeout()`,
not the wait-duration argument `d`; so for every `d` different from the
configured lease timeout the reported duration differs from the actual
wait bound. -/
theorem C10_timeout_reports_lease (l : SafeLock) (d : Int)
    (poll : Nat → LockState) (jitter : Nat → Nat) (fuel : Nat) (r : Int)
    (h : l.WaitForLock d poll jitter fuel = .timeoutErr r) :
    r = l.GetTimeout ∧ (d ≠ l.GetTimeout → r ≠ d) := by
  have hr : r = l.GetTimeout :=
    waitLoop_timeoutErr_reported l.GetTimeout d poll jitter fuel 0 0 r h
  refine ⟨hr, fun hne hc => hne ?_⟩
  rw [← hr, hc]

/-- Witness for C10: a handle with configured timeout 5 ns waiting with
`d = 1` ns reports 5 ns in the timeout error — not the actual wait bound. -/
theorem C10_timeout_reports_lease_witness :
    ∃ r, SafeLock.WaitForLock ⟨0, 0, ".lock", 5⟩ 1 (fun _ => .locked)
        (fun _ => 0) 2 = .timeoutErr r ∧ r ≠ 1 := by
  have hrun : SafeLock.WaitForLock ⟨0, 0, ".lock", 5⟩ 1
      (fun _ => LockState.locked) (fun _ => 0) 2 = .timeoutErr 5 := by decide
  exact ⟨5, hrun,
    (C10_timeout_reports_lease ⟨0, 0, ".lock", 5⟩ 1 _ _ 2 5 hrun).2 (by decide)⟩

end Safelock
